import Mathlib

/-
  Verification development for the `ex`-sentinel tree-rewriting transform
  (babel-plugin-syntax-exists, src/index.js).

  The expression tree is embedded as an inductive type tagged like the
  Babylon AST; a path is a node together with an optional parent reference.
  JavaScript operations that can fail at runtime on missing data (reading
  `.type` or `.object` off `undefined`) are embedded as Option-valued
  functions, with `none` standing for an uncaught runtime fault.
-/

namespace BabelExists

mutual
/-- Expression-tree nodes, tagged like the Babylon AST node types used by
the plugin.  `exprStatement` and `assignment` appear only as parents.
Call-argument sequences are a mutually defined list type. -/
inductive Expr where
  | identifier (name : String)
  | stringLit (value : String)
  | nullLit
  | booleanLit (b : Bool)
  | numericLit (n : Nat)
  | binary (op : String) (l : Expr) (r : Expr)
  | logical (op : String) (l : Expr) (r : Expr)
  | unary (op : String) (arg : Expr) (pre : Bool)
  | conditional (t : Expr) (c : Expr) (a : Expr)
  | member (obj : Expr) (prop : Expr)
  | call (callee : Expr) (args : ExprList)
  | exprStatement (e : Expr)
  | assignment (op : String) (l : Expr) (r : Expr)
deriving Repr, DecidableEq

/-- An ordered sequence of call-argument expressions. -/
inductive ExprList where
  | nil
  | cons (head : Expr) (tail : ExprList)
deriving Repr, DecidableEq
end

/-- The Babylon `type` discriminator string of a node. -/
def typeTag : Expr → String
  | .identifier _ => "Identifier"
  | .stringLit _ => "StringLiteral"
  | .nullLit => "NullLiteral"
  | .booleanLit _ => "BooleanLiteral"
  | .numericLit _ => "NumericLiteral"
  | .binary _ _ _ => "BinaryExpression"
  | .logical _ _ _ => "LogicalExpression"
  | .unary _ _ _ => "UnaryExpression"
  | .conditional _ _ _ => "ConditionalExpression"
  | .member _ _ => "MemberExpression"
  | .call _ _ => "CallExpression"
  | .exprStatement _ => "ExpressionStatement"
  | .assignment _ _ _ => "AssignmentExpression"

/-- The `.name` field of a node: present only on identifiers
(`undefined` on every other node kind). -/
def propName : Expr → Option String
  | .identifier n => some n
  | _ => none

/-- A traversal path: the current node plus a non-owning reference to its
syntactic parent, which may be absent at the root. -/
structure Path where
  node : Expr
  parent : Option Expr
deriving Repr, DecidableEq

/-! ### Guard builders (src/index.js lines 16-97) -/

/-- `isNotExp(l, r)`: a BinaryExpression `l !== r`. -/
def isNotExp (comparateLeft comparateRight : Expr) : Expr :=
  .binary "!==" comparateLeft comparateRight

/-- `isNotTypeofExp({node: {object}}, type_string)`: destructures the
path's node to its `object` child and builds
`typeof object !== "<type_string>"`.  On a node with no `object` child
the destructured value is missing, so the build fails. -/
def isNotTypeofExp (p : Path) (typeString : String) : Option Expr :=
  match p.node with
  | .member object _ => some (isNotExp (.unary "typeof" object false) (.stringLit typeString))
  | _ => none

/-- `isNotTypeUndefinedExp(path)`. -/
def isNotTypeUndefinedExp (p : Path) : Option Expr :=
  isNotTypeofExp p "undefined"

/-- `isNotNullExp({node: {property: {name}}})`: destructures the path's
node to its property's `name` and builds `Identifier(name) !== null`.
The property must carry a `name` (be an identifier) for the build to
produce a well-formed identifier. -/
def isNotNullExp (p : Path) : Option Expr :=
  match p.node with
  | .member _ (.identifier name) => some (isNotExp (.identifier name) .nullLit)
  | _ => none

/-- `isNotTypeFunction(path)`. -/
def isNotTypeFunction (p : Path) : Option Expr :=
  isNotTypeofExp p "function"

/-- `isNotTypeUndefinedAndNotNullExp(path)`: the LogicalExpression
`isNotTypeUndefinedExp(path) && isNotNullExp(path)`. -/
def isNotTypeUndefinedAndNotNullExp (p : Path) : Option Expr := do
  let l ← isNotTypeUndefinedExp p
  let r ← isNotNullExp p
  pure (.logical "&&" l r)

/-- `isNotTypeUndefinedAndNotNullAndNotTypeFunctionExp(path)`. -/
def isNotTypeUndefinedAndNotNullAndNotTypeFunctionExp (p : Path) : Option Expr := do
  let l ← isNotTypeUndefinedAndNotNullExp p
  let r ← isNotTypeFunction p
  pure (.logical "&&" l r)

/-! ### Classifier predicates (src/index.js lines 106-146)

`childExists` and `isCallee` read `path.parent.type` unconditionally:
when the parent reference is absent this is a runtime fault, embedded
as `none`.  `parentExists` only returns inside its `if` branch, so on a
parentless path it returns no boolean at all (JavaScript `undefined`),
also embedded as `none`. -/

/-- `parentExists(path)`: `if (path.parent) return Boolean(path.parent)`;
falls through with no return value when the parent is absent. -/
def parentExists (p : Path) : Option Bool :=
  match p.parent with
  | some _ => some true
  | none => none

/-- `childExists(path)`: `Boolean(path.parent.type !== "ExpressionStatement")`. -/
def childExists (p : Path) : Option Bool :=
  match p.parent with
  | some par => some (typeTag par != "ExpressionStatement")
  | none => none

/-- `isCallee(path)`: `Boolean(path.parent.type === "CallExpression")`. -/
def isCallee (p : Path) : Option Bool :=
  match p.parent with
  | some par => some (typeTag par == "CallExpression")
  | none => none

/-! ### MemberExpression branch factories (src/index.js lines 153-167) -/

/-- `testMemberExp(path)`. -/
def testMemberExp (p : Path) : Option Expr :=
  isNotTypeUndefinedAndNotNullExp p

/-- `consequentMemberExp(path)`: `childExists(path) ? path.node.object
: t.booleanLiteral(true)`.  Reading `.object` off a node without one
yields missing data. -/
def consequentMemberExp (p : Path) : Option Expr := do
  let ce ← childExists p
  if ce then
    match p.node with
    | .member object _ => pure object
    | _ => none
  else
    pure (.booleanLit true)

/-- `alternativeMemberExp(path)`: `childExists(path) ?
t.unaryExpression("void", t.numericLiteral(0), false) :
t.booleanLiteral(false)`. -/
def alternativeMemberExp (p : Path) : Option Expr := do
  let ce ← childExists p
  pure (if ce then .unary "void" (.numericLit 0) false else .booleanLit false)

/-! ### CallExpression branch factories (src/index.js lines 173-185) -/

/-- `testCallExp(path)`. -/
def testCallExp (p : Path) : Option Expr :=
  isNotTypeUndefinedAndNotNullAndNotTypeFunctionExp p

/-- `consequentCallExp(path)`: `t.callExpression(path,
path.parent.arguments)`.  The source passes the path object where a
callee node is expected; it is embedded as the path's node.  Reading
`.arguments` requires the parent to be a call node. -/
def consequentCallExp (p : Path) : Option Expr :=
  match p.parent with
  | some (.call _ args) => some (.call p.node args)
  | _ => none

/-- `alternativeCallExp(path)`: same shape as `alternativeMemberExp`. -/
def alternativeCallExp (p : Path) : Option Expr := do
  let ce ← childExists p
  pure (if ce then .unary "void" (.numericLit 0) false else .booleanLit false)

/-! ### Computed selectors and the rewrite engine (src/index.js lines 191-218) -/

/-- `testExpression(path)`: `isCallee(path) ? testCallExp(path) :
testMemberExp(path)`. -/
def testExpression (p : Path) : Option Expr := do
  let c ← isCallee p
  if c then testCallExp p else testMemberExp p

/-- `consequentExpression(path)`. -/
def consequentExpression (p : Path) : Option Expr := do
  let c ← isCallee p
  if c then consequentCallExp p else consequentMemberExp p

/-- `alternativeExpression(path)`. -/
def alternativeExpression (p : Path) : Option Expr := do
  let c ← isCallee p
  if c then alternativeCallExp p else alternativeMemberExp p

/-- `existentialExpression(path)`: builds the replacement
ConditionalExpression from the MemberExpression branch factories.  The
context-computed selectors appear in the source only as commented-out
arguments (lines 211-213). -/
def existentialExpression (p : Path) : Option Expr := do
  let t ← testMemberExp p
  let c ← consequentMemberExp p
  let a ← alternativeMemberExp p
  pure (.conditional t c a)

/-- The rewrite engine as the commented-out lines 211-213 would wire it:
the ConditionalExpression built from the context-computed selectors.
Defined only to contrast with `existentialExpression`. -/
def existentialExpressionComputed (p : Path) : Option Expr := do
  let t ← testExpression p
  let c ← consequentExpression p
  let a ← alternativeExpression p
  pure (.conditional t c a)

/-! ### Visitor entry point (src/index.js lines 224-233) -/

/-- Outcome of one visitor invocation: an uncaught runtime fault, no
change to the tree, or a substitution request carrying the replacement. -/
inductive VisitResult where
  | fault
  | noChange
  | replacedWith (e : Expr)
deriving Repr, DecidableEq

/-- The `MemberExpression` visitor callback: reads
`path.node.property.name`; when it equals `"ex"`, requests
`path.replaceWith(existentialExpression(path))`.  Reading `.property.name`
off a node without a property child is a runtime fault; a fault while
building the replacement propagates before any substitution happens. -/
def visitMemberExpression (p : Path) : VisitResult :=
  match p.node with
  | .member _ prop =>
      if propName prop = some "ex" then
        match existentialExpression p with
        | some e => .replacedWith e
        | none => .fault
      else .noChange
  | _ => .fault

/-- Whether a visit outcome is a substitution request. -/
def isSubstitution : VisitResult → Bool
  | .replacedWith _ => true
  | _ => false

/-! ### Spec-side reference definitions, for refinement comparisons -/

/-- The null guard as the spec words it: `isNotNull(objectExpr)` is
`objectExpr !== null` where `objectExpr` is the object child of the
matched member-access node. -/
def isNotNullExpSpec (p : Path) : Option Expr :=
  match p.node with
  | .member object _ => some (isNotExp object .nullLit)
  | _ => none

/-- The call-target classifier as the spec words it: true exactly when
the immediate parent is a call node and this node occupies that call's
callee position. -/
def isCalleeSpec (p : Path) : Bool :=
  match p.parent with
  | some (.call c _) => decide (c = p.node)
  | _ => false

/-! ### Auxiliary: occurrence of an `"ex"`-named property access -/

mutual
/-- Whether an expression contains a member-access node whose property
identifier name is `"ex"` (anywhere, itself included). -/
def containsExMember : Expr → Bool
  | .identifier _ => false
  | .stringLit _ => false
  | .nullLit => false
  | .booleanLit _ => false
  | .numericLit _ => false
  | .binary _ l r => containsExMember l || containsExMember r
  | .logical _ l r => containsExMember l || containsExMember r
  | .unary _ arg _ => containsExMember arg
  | .conditional t c a => containsExMember t || containsExMember c || containsExMember a
  | .member obj prop =>
      propName prop == some "ex" || containsExMember obj || containsExMember prop
  | .call callee args => containsExMember callee || containsExMemberList args
  | .exprStatement e => containsExMember e
  | .assignment _ l r => containsExMember l || containsExMember r

/-- `containsExMember` over an argument list. -/
def containsExMemberList : ExprList → Bool
  | .nil => false
  | .cons e es => containsExMember e || containsExMemberList es
end

/-! ### Concrete example paths -/

/-- `a.ex;` — the matched access as a bare statement. -/
def pathStmt : Path :=
  ⟨.member (.identifier "a") (.identifier "ex"),
    some (.exprStatement (.member (.identifier "a") (.identifier "ex")))⟩

/-- `b = a.ex` — the matched access with its result consumed. -/
def pathAssign : Path :=
  ⟨.member (.identifier "a") (.identifier "ex"),
    some (.assignment "=" (.identifier "b") (.member (.identifier "a") (.identifier "ex")))⟩

/-- `a.ex()` — the matched access in callee position of a call. -/
def pathCallee : Path :=
  ⟨.member (.identifier "a") (.identifier "ex"),
    some (.call (.member (.identifier "a") (.identifier "ex")) .nil)⟩

/-- `f(a.ex)` — the matched access in argument position of a call. -/
def pathArg : Path :=
  ⟨.member (.identifier "a") (.identifier "ex"),
    some (.call (.identifier "f") (.cons (.member (.identifier "a") (.identifier "ex")) .nil))⟩

/-- `a.ex` with no parent reference at all. -/
def pathRoot : Path :=
  ⟨.member (.identifier "a") (.identifier "ex"), none⟩

/-- `a.foo;` — a member access whose property name is not the sentinel. -/
def pathFoo : Path :=
  ⟨.member (.identifier "a") (.identifier "foo"),
    some (.exprStatement (.member (.identifier "a") (.identifier "foo")))⟩

/-! ### Shared evaluation lemma -/

/-- On a member-access node with an identifier property and a present
parent, the rewrite engine's output evaluated in closed form. -/
lemma existentialExpression_member_eq (obj par : Expr) (name : String) :
    existentialExpression ⟨.member obj (.identifier name), some par⟩ =
      some (.conditional
        (.logical "&&"
          (.binary "!==" (.unary "typeof" obj false) (.stringLit "undefined"))
          (.binary "!==" (.identifier name) .nullLit))
        (if typeTag par != "ExpressionStatement" then obj else .booleanLit true)
        (if typeTag par != "ExpressionStatement" then .unary "void" (.numericLit 0) false
         else .booleanLit false)) := by
  cases h : typeTag par != "ExpressionStatement" <;>
    simp [existentialExpression, testMemberExp, isNotTypeUndefinedAndNotNullExp,
      isNotTypeUndefinedExp, isNotTypeofExp, isNotNullExp, isNotExp,
      consequentMemberExp, alternativeMemberExp, childExists, h]

/-! ### Claim theorems -/

/-- C1: for every path on which the three member-branch factories
succeed, the rewrite engine builds the conditional exactly from their
outputs; in particular on `a.ex()` — where `isCallee` holds — the
output is still the member-branch conditional, and differs from what
the call-position wiring of the commented-out selectors would build. -/
theorem existentialExpression_always_member_branch :
    (∀ p t c a, testMemberExp p = some t → consequentMemberExp p = some c →
        alternativeMemberExp p = some a →
        existentialExpression p = some (.conditional t c a)) ∧
    isCallee pathCallee = some true ∧
    existentialExpression pathCallee = some (.conditional
      (.logical "&&"
        (.binary "!==" (.unary "typeof" (.identifier "a") false) (.stringLit "undefined"))
        (.binary "!==" (.identifier "ex") .nullLit))
      (.identifier "a")
      (.unary "void" (.numericLit 0) false)) ∧
    existentialExpressionComputed pathCallee ≠ existentialExpression pathCallee := by
  refine ⟨?_, by decide, by decide, by decide⟩
  intro p t c a ht hc ha
  simp [existentialExpression, ht, hc, ha]

/-- Witness for C1: the universal part applied to the bare-statement
path `a.ex;` with its concrete factory outputs. -/
theorem existentialExpression_always_member_branch_witness :
    existentialExpression pathStmt = some (.conditional
      (.logical "&&"
        (.binary "!==" (.unary "typeof" (.identifier "a") false) (.stringLit "undefined"))
        (.binary "!==" (.identifier "ex") .nullLit))
      (.booleanLit true) (.booleanLit false)) :=
  existentialExpression_always_member_branch.1 pathStmt
    (.logical "&&"
      (.binary "!==" (.unary "typeof" (.identifier "a") false) (.stringLit "undefined"))
      (.binary "!==" (.identifier "ex") .nullLit))
    (.booleanLit true) (.booleanLit false) (by decide) (by decide) (by decide)

/-- C2 counterexample: on the matched access `a.ex` the null-guard
builder produces `ex !== null` — an identifier named after the
property — not `a !== null` over the base object, so it differs from
the spec-worded guard. -/
theorem isNotNullExp_claim_counterexample :
    isNotNullExp pathStmt = some (.binary "!==" (.identifier "ex") .nullLit) ∧
    isNotNullExpSpec pathStmt = some (.binary "!==" (.identifier "a") .nullLit) ∧
    isNotNullExp pathStmt ≠ isNotNullExpSpec pathStmt := by decide

/-- C2 amended: on every member-access node whose property is an
identifier, `isNotNullExp` builds `Identifier(property.name) !== null`,
comparing an identifier named after the property (the sentinel) — not
the base object — against null. -/
theorem isNotNullExp_compares_property_identifier (obj : Expr) (name : String)
    (q : Option Expr) :
    isNotNullExp ⟨.member obj (.identifier name), q⟩ =
      some (.binary "!==" (.identifier name) .nullLit) := rfl

/-- C3: on a visit of a member-access node with a present parent, a
substitution is requested exactly when the property identifier's name
is `"ex"`; any other member access is left unchanged. -/
theorem visitor_substitutes_iff_ex (obj prop par : Expr) :
    (isSubstitution (visitMemberExpression ⟨.member obj prop, some par⟩) = true ↔
      propName prop = some "ex") ∧
    (propName prop ≠ some "ex" →
      visitMemberExpression ⟨.member obj prop, some par⟩ = .noChange) := by
  by_cases hx : propName prop = some "ex"
  · have hprop : prop = .identifier "ex" := by
      cases prop <;> simp [propName] at hx
      simp [hx]
    subst hprop
    simp [visitMemberExpression, propName, existentialExpression_member_eq, isSubstitution]
  · simp [visitMemberExpression, isSubstitution, hx]

/-- Witness for C3: `a.foo;` has a non-sentinel property name and the
visitor leaves it unchanged. -/
theorem visitor_substitutes_iff_ex_witness :
    visitMemberExpression ⟨.member (.identifier "a") (.identifier "foo"),
      some (.exprStatement (.member (.identifier "a") (.identifier "foo")))⟩ = .noChange :=
  (visitor_substitutes_iff_ex (.identifier "a") (.identifier "foo")
    (.exprStatement (.member (.identifier "a") (.identifier "foo")))).2 (by decide)

/-- C4: on a matched access with a present parent, the member branch
yields consequent = base object and alternative = `void 0` when the
parent is not an expression statement, and consequent = `true`,
alternative = `false` when it is. -/
theorem memberBranch_consequent_alternative (obj par : Expr) :
    (typeTag par ≠ "ExpressionStatement" →
      consequentMemberExp ⟨.member obj (.identifier "ex"), some par⟩ = some obj ∧
      alternativeMemberExp ⟨.member obj (.identifier "ex"), some par⟩ =
        some (.unary "void" (.numericLit 0) false)) ∧
    (typeTag par = "ExpressionStatement" →
      consequentMemberExp ⟨.member obj (.identifier "ex"), some par⟩ =
        some (.booleanLit true) ∧
      alternativeMemberExp ⟨.member obj (.identifier "ex"), some par⟩ =
        some (.booleanLit false)) := by
  constructor <;> intro h <;>
    simp [consequentMemberExp, alternativeMemberExp, childExists, h]

/-- Witness for C4: in `b = a.ex` the parent is an assignment, so the
consequent is the base object `a` and the alternative is `void 0`. -/
theorem memberBranch_consequent_alternative_witness :
    consequentMemberExp pathAssign = some (.identifier "a") ∧
    alternativeMemberExp pathAssign = some (.unary "void" (.numericLit 0) false) :=
  (memberBranch_consequent_alternative (.identifier "a")
    (.assignment "=" (.identifier "b") (.member (.identifier "a") (.identifier "ex")))).1
    (by decide)

/-- C5: when the matched access's base object contains no `"ex"`-named
property access, the built replacement contains none either; and the
visitor never requests a substitution on a node free of `"ex"`-named
accesses, so a second pass over the replacement performs none. -/
theorem rewrite_output_contains_no_ex (obj par e : Expr)
    (hobj : containsExMember obj = false)
    (he : existentialExpression ⟨.member obj (.identifier "ex"), some par⟩ = some e) :
    containsExMember e = false ∧
    (∀ q e', containsExMember q.node = false →
      visitMemberExpression q ≠ .replacedWith e') := by
  constructor
  · rw [existentialExpression_member_eq] at he
    cases he
    cases h : typeTag par != "ExpressionStatement" <;>
      simp [h, containsExMember, propName, hobj]
  · intro q e' hq hv
    cases hqn : q.node <;> rw [visitMemberExpression, hqn] at hv <;> simp at hv
    case member o pr =>
      by_cases hpr : propName pr = some "ex"
      · rw [hqn] at hq
        simp [containsExMember, hpr] at hq
      · simp [hpr] at hv

/-- Witness for C5: the replacement built for `b = a.ex` contains no
`"ex"`-named property access. -/
theorem rewrite_output_contains_no_ex_witness :
    containsExMember (.conditional
      (.logical "&&"
        (.binary "!==" (.unary "typeof" (.identifier "a") false) (.stringLit "undefined"))
        (.binary "!==" (.identifier "ex") .nullLit))
      (.identifier "a")
      (.unary "void" (.numericLit 0) false)) = false :=
  (rewrite_output_contains_no_ex (.identifier "a")
    (.assignment "=" (.identifier "b") (.member (.identifier "a") (.identifier "ex")))
    _ (by decide) (by decide)).1

/-- C6 counterexample: in `f(a.ex)` the matched node sits in argument
position — the call's callee is `f`, not the node — yet `isCallee`
returns true, because it only compares the parent's type tag. -/
theorem isCallee_claim_counterexample :
    isCallee pathArg = some true ∧ isCalleeSpec pathArg = false := by decide

/-- C6 amended: for every path with a present parent, `isCallee`
returns true exactly when the parent's type tag is `CallExpression`,
regardless of which position the node occupies inside the parent; with
no parent it faults instead of returning. -/
theorem isCallee_checks_parent_type_only (n par : Expr) :
    isCallee ⟨n, some par⟩ = some (typeTag par == "CallExpression") ∧
    isCallee ⟨n, none⟩ = none := ⟨rfl, rfl⟩

/-- C7: the parent-existence predicate is not total boolean-valued —
at a parentless path it returns no boolean at all (undefined), not
`false`, contradicting its own documented Boolean return; with a
parent present it does return true. -/
theorem parentExists_not_boolean_at_root :
    parentExists pathRoot = none ∧
    parentExists pathRoot ≠ some false ∧
    parentExists pathStmt = some true := by decide

/-- C8: on every matched access the member-branch test is a logical
AND whose left conjunct is `typeof baseObject !== "undefined"` over the
base object and whose right conjunct is the null guard's output. -/
theorem testMemberExp_guard_shape (obj : Expr) (q : Option Expr) :
    isNotNullExp ⟨.member obj (.identifier "ex"), q⟩ =
      some (.binary "!==" (.identifier "ex") .nullLit) ∧
    testMemberExp ⟨.member obj (.identifier "ex"), q⟩ =
      some (.logical "&&"
        (.binary "!==" (.unary "typeof" obj false) (.stringLit "undefined"))
        (.binary "!==" (.identifier "ex") .nullLit)) := ⟨rfl, rfl⟩

/-- C9: visiting a matched `"ex"` access whose path has no parent
reference faults while building the replacement — the consumption
predicate reads the parent's type unconditionally — and the fault
propagates out of the visitor before any substitution is requested. -/
theorem visitor_faults_without_parent (obj : Expr) :
    childExists ⟨.member obj (.identifier "ex"), none⟩ = none ∧
    consequentMemberExp ⟨.member obj (.identifier "ex"), none⟩ = none ∧
    existentialExpression ⟨.member obj (.identifier "ex"), none⟩ = none ∧
    visitMemberExpression ⟨.member obj (.identifier "ex"), none⟩ = .fault :=
  ⟨rfl, rfl, rfl, rfl⟩

/-- C10: the rewrite is deterministic and stateless — two invocations
on paths with structurally equal node and parent build structurally
equal replacements and visit outcomes. -/
theorem rewrite_deterministic (p q : Path)
    (hn : p.node = q.node) (hp : p.parent = q.parent) :
    existentialExpression p = existentialExpression q ∧
    visitMemberExpression p = visitMemberExpression q := by
  rcases p with ⟨n, pr⟩
  rcases q with ⟨m, qr⟩
  obtain rfl : n = m := hn
  obtain rfl : pr = qr := hp
  exact ⟨rfl, rfl⟩

/-- Witness for C10: applied to two structurally equal copies of the
`b = a.ex` path. -/
theorem rewrite_deterministic_witness :
    existentialExpression pathAssign =
      existentialExpression ⟨pathAssign.node, pathAssign.parent⟩ :=
  (rewrite_deterministic pathAssign ⟨pathAssign.node, pathAssign.parent⟩ rfl rfl).1

end BabelExists
